import Mathlib

/-!
Verification of the roulette-wheel spin core of `RandomDrawRoom.tsx`
(`RouletteWheel` component: the imperative handle `spinTo` / `reset`,
the `transitionend` completion handler `onEnd`, and the rotation math).

Angles and rotations are modelled over `ℚ` (the source uses JS numbers;
the algorithm is exact rational arithmetic on degrees).  The JS remainder
operator `%`, which truncates toward zero, is embedded as `jsRem`; the
mathematical modulo used in specification statements is `emod360`.

The component state is embedded as `WheelM`.  DOM-level behaviour that the
code relies on is made explicit:
  * `addEventListener("transitionend", onEnd)` appends a listener that is
    removed only when it runs (`reset` does NOT remove it);
  * setting `style.transition = "none"` cancels a running CSS transition,
    so a cancelled transition never produces a `transitionend` event;
  * a transition that has already completed has its `transitionend` event
    queued on the event loop; a later `reset` cannot retract it.  This is
    split into two steps, `transitionComplete` (the transition finishes,
    the event is queued) and `dispatchEnd` (the queued event is delivered
    to the listeners).
-/

/-- Truncation toward zero on `ℚ`, as JS `Math.trunc` / the implicit
truncation of the JS `%` operator. -/
def ratTrunc (q : ℚ) : ℤ := if 0 ≤ q then ⌊q⌋ else ⌈q⌉

/-- The JS remainder operator `a % b` on numbers: truncated division. -/
def jsRem (a b : ℚ) : ℚ := a - b * ratTrunc (a / b)

/-- Mathematical (floor-based, Euclidean for positive modulus) modulo 360,
used to state alignment properties. -/
def emod360 (a : ℚ) : ℚ := a - 360 * ⌊a / 360⌋

/-- `WheelItem` from the source: `{ id: string; label: string }`. -/
structure WheelItem where
  id : String
  label : String
deriving DecidableEq, Repr

/-- `const sliceAngle = items.length > 0 ? 360 / items.length : 0;` -/
def sliceAngle (items : List WheelItem) : ℚ :=
  if 0 < items.length then 360 / (items.length : ℚ) else 0

/-- `const winnerAngle = idx * sliceAngle + sliceAngle / 2;` (middle of slice) -/
def winnerAngle (items : List WheelItem) (idx : ℕ) : ℚ :=
  (idx : ℚ) * sliceAngle items + sliceAngle items / 2

/-- `const current = ((rotation % 360) + 360) % 360;` (normalises to 0..359) -/
def currentNorm (rotation : ℚ) : ℚ := jsRem (jsRem rotation 360 + 360) 360

/-- `const targetAbs = spins * 360 + (360 - winnerAngle);` -/
def targetAbs (spins : ℕ) (wAngle : ℚ) : ℚ := (spins : ℚ) * 360 + (360 - wAngle)

/-- `const deltaForward = ((targetAbs - current) % 360 + 360) % 360 + spins * 360;` -/
def deltaForward (spins : ℕ) (wAngle current : ℚ) : ℚ :=
  jsRem (jsRem (targetAbs spins wAngle - current) 360 + 360) 360 + (spins : ℚ) * 360

/-- A registered `transitionend` listener: the `onEnd` closure captures
`nextRotation` and `winnerId`. -/
structure Pending where
  nextRotation : ℚ
  winnerId : String
deriving DecidableEq, Repr

/-- State of the `RouletteWheel` component: the React state
(`rotation`, `spinning`, `selectedId`), the item list, plus the DOM-level
facts the code manipulates (registered `transitionend` listeners, whether
a CSS transition is running, whether a `transitionend` event is queued). -/
structure WheelM where
  items : List WheelItem
  rotation : ℚ
  spinning : Bool
  selectedId : Option String
  listeners : List Pending
  transitionRunning : Bool
  endQueued : Bool
deriving DecidableEq, Repr

/-- The spec phases, derived from the component state: `spinning` is the
Spinning flag; a set `selectedId` with no spin running is Settled. -/
inductive Phase where
  | Idle
  | Spinning
  | Settled
deriving DecidableEq, Repr

/-- Phase projection of the component state. -/
def phase (s : WheelM) : Phase :=
  if s.spinning then Phase.Spinning
  else if s.selectedId.isSome then Phase.Settled
  else Phase.Idle

/-- `spinTo(winnerId, opts)` from the imperative handle (lines 64-97):
guards (`!items.length`, `findIndex === -1`), rotation math, then
`setSpinning(true)`, and inside the animation frame `setSelectedId(null)`,
`setRotation(nextRotation)`, start of the CSS transition and registration
of the one-shot `onEnd` listener.  `durationMs` only styles the CSS
transition and does not appear in the state. -/
def spinTo (s : WheelM) (winnerId : String) (spins : ℕ) : WheelM :=
  if s.items.length = 0 then s
  else
    match s.items.findIdx? (fun it => it.id == winnerId) with
    | none => s
    | some idx =>
      let wAng := winnerAngle s.items idx
      let current := currentNorm s.rotation
      let delta := deltaForward spins wAng current
      let nextRotation := s.rotation + delta
      { s with
        spinning := true
        selectedId := none
        rotation := nextRotation
        listeners := s.listeners ++ [⟨nextRotation, winnerId⟩]
        transitionRunning := true }

/-- Body of the `onEnd` listener (lines 85-94) for one captured `Pending`:
`const canonical = nextRotation % 360;`
`setRotation((prev) => prev + (canonical - (prev % 360)));`
`setSpinning(false); setSelectedId(winnerId);` (the `onDone` call is the
emitted output, handled by the step function). -/
def runOnEnd (s : WheelM) (p : Pending) : WheelM :=
  let canonical := jsRem p.nextRotation 360
  { s with
    rotation := s.rotation + (canonical - jsRem s.rotation 360)
    spinning := false
    selectedId := some p.winnerId }

/-- `reset()` from the imperative handle (lines 98-103):
`setSelectedId(null); style.transition = "none"; setRotation(0);
setSpinning(false);`.  Setting the transition to "none" cancels a running
transition; it does NOT remove registered `transitionend` listeners and
cannot retract an already queued `transitionend` event. -/
def reset (s : WheelM) : WheelM :=
  { s with
    selectedId := none
    rotation := 0
    spinning := false
    transitionRunning := false }

/-- External events driving the component. -/
inductive Event where
  | spin (winnerId : String) (spins : ℕ)
  | transitionComplete
  | dispatchEnd
  | reset
deriving DecidableEq, Repr

/-- One step of the component; returns the new state and the list of
winner ids passed to `onDone` during the step.  `transitionComplete`
models the running CSS transition finishing (its `transitionend` event is
queued); `dispatchEnd` delivers a queued event to every registered
listener (each `onEnd` removes itself via `removeEventListener`). -/
def step (s : WheelM) : Event → WheelM × List String
  | Event.spin w k => (spinTo s w k, [])
  | Event.transitionComplete =>
    (if s.transitionRunning then
      { s with transitionRunning := false, endQueued := true }
    else s, [])
  | Event.dispatchEnd =>
    if s.endQueued then
      ({ s.listeners.foldl runOnEnd s with listeners := [], endQueued := false },
        s.listeners.map (fun p => p.winnerId))
    else (s, [])
  | Event.reset => (reset s, [])

/-- Run a sequence of events, collecting all `onDone` outputs in order. -/
def runTrace (s : WheelM) : List Event → WheelM × List String
  | [] => (s, [])
  | e :: es =>
    let r := step s e
    let r2 := runTrace r.1 es
    (r2.1, r.2 ++ r2.2)

/-- Initial component state for a given item list:
`rotation = 0`, not spinning, nothing selected, no listeners. -/
def initWheel (items : List WheelItem) : WheelM :=
  { items := items
    rotation := 0
    spinning := false
    selectedId := none
    listeners := []
    transitionRunning := false
    endQueued := false }

/-! ### Arithmetic lemmas about `jsRem` and `emod360` -/

theorem emod360_nonneg (a : ℚ) : 0 ≤ emod360 a := by
  have h1 : ((⌊a / 360⌋ : ℚ)) ≤ a / 360 := Int.floor_le (a / 360)
  have h2 : (360 : ℚ) * (⌊a / 360⌋ : ℚ) ≤ 360 * (a / 360) := by linarith
  have h3 : (360 : ℚ) * (a / 360) = a := by ring
  unfold emod360
  linarith

theorem emod360_lt (a : ℚ) : emod360 a < 360 := by
  have h1 : a / 360 < (⌊a / 360⌋ : ℚ) + 1 := Int.lt_floor_add_one (a / 360)
  have h2 : (360 : ℚ) * (a / 360) < 360 * ((⌊a / 360⌋ : ℚ) + 1) := by linarith
  have h3 : (360 : ℚ) * (a / 360) = a := by ring
  unfold emod360
  linarith

theorem emod360_le_self {a : ℚ} (h : 0 ≤ a) : emod360 a ≤ a := by
  have h1 : (0 : ℤ) ≤ ⌊a / 360⌋ :=
    Int.floor_nonneg.mpr (div_nonneg h (by norm_num))
  have h2 : (0 : ℚ) ≤ (⌊a / 360⌋ : ℚ) := by exact_mod_cast h1
  unfold emod360
  nlinarith

theorem emod360_add_intmul (a : ℚ) (k : ℤ) : emod360 (a + 360 * k) = emod360 a := by
  unfold emod360
  have h : (a + 360 * k) / 360 = a / 360 + k := by
    field_simp
    ring
  rw [h, Int.floor_add_int]
  push_cast
  ring

theorem jsRem_eq_emod360 {a : ℚ} (h : 0 ≤ a) : jsRem a 360 = emod360 a := by
  unfold jsRem ratTrunc emod360
  rw [if_pos (div_nonneg h (by norm_num))]

theorem jsRem_gt_neg (a : ℚ) : -360 < jsRem a 360 := by
  unfold jsRem ratTrunc
  by_cases h : 0 ≤ a / 360
  · rw [if_pos h]
    have h1 : ((⌊a / 360⌋ : ℚ)) ≤ a / 360 := Int.floor_le (a / 360)
    have h3 : (360 : ℚ) * (a / 360) = a := by ring
    nlinarith
  · rw [if_neg h]
    have h1 : ((⌈a / 360⌉ : ℚ)) < a / 360 + 1 := Int.ceil_lt_add_one (a / 360)
    have h3 : (360 : ℚ) * (a / 360) = a := by ring
    nlinarith

theorem jsRem_norm (a : ℚ) : jsRem (jsRem a 360 + 360) 360 = emod360 a := by
  have h0 : 0 ≤ jsRem a 360 + 360 := by
    have := jsRem_gt_neg a
    linarith
  rw [jsRem_eq_emod360 h0]
  have h1 : jsRem a 360 + 360 = a + 360 * ((1 - ratTrunc (a / 360) : ℤ) : ℚ) := by
    unfold jsRem
    push_cast
    ring
  rw [h1, emod360_add_intmul]

theorem currentNorm_eq (r : ℚ) : currentNorm r = emod360 r := jsRem_norm r

theorem deltaForward_eq (k : ℕ) (w c : ℚ) :
    deltaForward k w c = emod360 (targetAbs k w - c) + (k : ℚ) * 360 := by
  unfold deltaForward
  rw [jsRem_norm]

theorem deltaForward_lower (k : ℕ) (w c : ℚ) : (k : ℚ) * 360 ≤ deltaForward k w c := by
  rw [deltaForward_eq]
  have := emod360_nonneg (targetAbs k w - c)
  linarith

theorem deltaForward_upper (k : ℕ) (w c : ℚ) :
    deltaForward k w c < ((k : ℚ) + 1) * 360 := by
  rw [deltaForward_eq]
  have := emod360_lt (targetAbs k w - c)
  linarith

/-- The heart of the alignment property: adding the forward delta computed
from the normalised current orientation lands, modulo 360, exactly on
`360 - winnerAngle` (the orientation that puts the winner slice midpoint
under the pointer). -/
theorem spin_align (r w : ℚ) (k : ℕ) :
    emod360 (r + deltaForward k w (currentNorm r)) = emod360 (360 - w) := by
  rw [currentNorm_eq, deltaForward_eq]
  have key : r + (emod360 (targetAbs k w - emod360 r) + (k : ℚ) * 360)
      = (360 - w) + 360 *
        ((⌊r / 360⌋ + 2 * (k : ℤ) - ⌊(targetAbs k w - emod360 r) / 360⌋ : ℤ) : ℚ) := by
    unfold emod360 targetAbs
    push_cast
    ring
  rw [key, emod360_add_intmul]

/-! ### Structural lemmas about `spinTo` -/

theorem findIdx?_length_pos {l : List WheelItem} {p : WheelItem → Bool} {i : ℕ}
    (h : l.findIdx? p = some i) : 0 < l.length := by
  cases l with
  | nil => simp [List.findIdx?] at h
  | cons x xs => simp

theorem spinTo_of_found {s : WheelM} {w : String} {i : ℕ} (k : ℕ)
    (h : s.items.findIdx? (fun it => it.id == w) = some i) :
    spinTo s w k =
      { s with
        spinning := true
        selectedId := none
        rotation := s.rotation +
          deltaForward k (winnerAngle s.items i) (currentNorm s.rotation)
        listeners := s.listeners ++
          [⟨s.rotation + deltaForward k (winnerAngle s.items i) (currentNorm s.rotation), w⟩]
        transitionRunning := true } := by
  have hl : ¬ s.items.length = 0 := Nat.pos_iff_ne_zero.mp (findIdx?_length_pos h)
  unfold spinTo
  rw [if_neg hl, h]

theorem winnerAngle_as_mid {items : List WheelItem} (i : ℕ) (h : 0 < items.length) :
    winnerAngle items i =
      (i : ℚ) * 360 / (items.length : ℚ) + 180 / (items.length : ℚ) := by
  unfold winnerAngle sliceAngle
  rw [if_pos h]
  ring

/-! ### Claim theorems -/

/-- C1: for every item list with the target id present (at index `i`),
every current rotation value and every `spinCount = k ≥ 0` (including 0),
the forward delta computed by `spinTo` satisfies `k * 360 ≤ delta` (so it
is non-negative, never a backward rotation) and
`(current + delta) mod 360 = (360 - winnerMid) mod 360`, where
`winnerMid = i * 360 / N + 180 / N` is the midpoint of slice `i`. -/
theorem spinTo_forward_and_aligns (s : WheelM) (w : String) (k i : ℕ)
    (h : s.items.findIdx? (fun it => it.id == w) = some i) :
    (k : ℚ) * 360 ≤ (spinTo s w k).rotation - s.rotation ∧
    emod360 (s.rotation + ((spinTo s w k).rotation - s.rotation)) =
      emod360 (360 -
        ((i : ℚ) * 360 / (s.items.length : ℚ) + 180 / (s.items.length : ℚ))) := by
  have hpos : 0 < s.items.length := findIdx?_length_pos h
  have hrot : (spinTo s w k).rotation =
      s.rotation + deltaForward k (winnerAngle s.items i) (currentNorm s.rotation) := by
    rw [spinTo_of_found k h]
  have hd : (spinTo s w k).rotation - s.rotation =
      deltaForward k (winnerAngle s.items i) (currentNorm s.rotation) := by
    rw [hrot]; ring
  rw [hd]
  constructor
  · exact deltaForward_lower k (winnerAngle s.items i) (currentNorm s.rotation)
  · rw [← winnerAngle_as_mid i hpos]
    exact spin_align s.rotation (winnerAngle s.items i) k

/-- Witness for C1 at a concrete input: two items, target "b", one spin. -/
theorem spinTo_forward_and_aligns_witness :
    (initWheel [⟨"a", "A"⟩, ⟨"b", "B"⟩]).items.findIdx?
      (fun it => it.id == "b") = some 1 ∧
    ((1 : ℚ) * 360 ≤
        (spinTo (initWheel [⟨"a", "A"⟩, ⟨"b", "B"⟩]) "b" 1).rotation -
          (initWheel [⟨"a", "A"⟩, ⟨"b", "B"⟩]).rotation ∧
      emod360 ((initWheel [⟨"a", "A"⟩, ⟨"b", "B"⟩]).rotation +
          ((spinTo (initWheel [⟨"a", "A"⟩, ⟨"b", "B"⟩]) "b" 1).rotation -
            (initWheel [⟨"a", "A"⟩, ⟨"b", "B"⟩]).rotation)) =
        emod360 (360 -
          ((1 : ℚ) * 360 / ((initWheel [⟨"a", "A"⟩, ⟨"b", "B"⟩]).items.length : ℚ) +
            180 / ((initWheel [⟨"a", "A"⟩, ⟨"b", "B"⟩]).items.length : ℚ)))) :=
  ⟨rfl, spinTo_forward_and_aligns (initWheel [⟨"a", "A"⟩, ⟨"b", "B"⟩]) "b" 1 1 rfl⟩

/-- C10: for every valid `spinTo` (target present, any rotation, any
`spinCount = k`) the forward delta is strictly below `(k + 1) * 360`. -/
theorem spinTo_delta_upper_bound (s : WheelM) (w : String) (k i : ℕ)
    (h : s.items.findIdx? (fun it => it.id == w) = some i) :
    (spinTo s w k).rotation - s.rotation < ((k : ℚ) + 1) * 360 := by
  have hrot : (spinTo s w k).rotation =
      s.rotation + deltaForward k (winnerAngle s.items i) (currentNorm s.rotation) := by
    rw [spinTo_of_found k h]
  have hd : (spinTo s w k).rotation - s.rotation =
      deltaForward k (winnerAngle s.items i) (currentNorm s.rotation) := by
    rw [hrot]; ring
  rw [hd]
  exact deltaForward_upper k (winnerAngle s.items i) (currentNorm s.rotation)

/-- Witness for C10 at a concrete input: one item, spinCount 0. -/
theorem spinTo_delta_upper_bound_witness :
    (initWheel [⟨"a", "A"⟩]).items.findIdx? (fun it => it.id == "a") = some 0 ∧
    (spinTo (initWheel [⟨"a", "A"⟩]) "a" 0).rotation -
      (initWheel [⟨"a", "A"⟩]).rotation < ((0 : ℚ) + 1) * 360 :=
  ⟨rfl, spinTo_delta_upper_bound (initWheel [⟨"a", "A"⟩]) "a" 0 0 rfl⟩

/-- C5: `spinTo` with a target id absent from the item list, or on an
empty item list, is a no-op: the whole state (phase, rotation, selectedId,
listeners) is unchanged and no completion is scheduled. -/
theorem spinTo_noop_on_bad_target (s : WheelM) (w : String) (k : ℕ)
    (h : s.items = [] ∨ s.items.findIdx? (fun it => it.id == w) = none) :
    spinTo s w k = s := by
  rcases h with h | h
  · unfold spinTo
    rw [if_pos (by rw [h]; rfl)]
  · unfold spinTo
    by_cases hl : s.items.length = 0
    · rw [if_pos hl]
    · rw [if_neg hl, h]

/-- Witness for C5 at a concrete input: empty item list. -/
theorem spinTo_noop_on_bad_target_witness :
    ((initWheel []).items = [] ∨
      (initWheel []).items.findIdx? (fun it => it.id == "x") = none) ∧
    spinTo (initWheel []) "x" 6 = initWheel [] :=
  ⟨Or.inl rfl, spinTo_noop_on_bad_target (initWheel []) "x" 6 (Or.inl rfl)⟩

/-- C8: `reset` is idempotent and safe in every state: two resets in a row
equal one, and the state after reset is rotation 0, not spinning, nothing
selected, phase Idle. -/
theorem reset_idempotent (s : WheelM) :
    reset (reset s) = reset s ∧
    (reset s).rotation = 0 ∧
    (reset s).spinning = false ∧
    (reset s).selectedId = none ∧
    phase (reset s) = Phase.Idle := by
  simp [reset, phase]

/-- C4 counterexample: `spinTo` received while `phase = Spinning` is NOT
ignored.  From a spinning one-item state with rotation 0, `spinTo "a" 0`
changes the state: the rotation becomes 180 (and a new completion
listener is registered), so the call performs a state change. -/
theorem spinTo_while_spinning_changes_state :
    (spinTo { initWheel [⟨"a", "A"⟩] with spinning := true } "a" 0).rotation = 180 ∧
    ({ initWheel [⟨"a", "A"⟩] with spinning := true } : WheelM).rotation = 0 ∧
    spinTo { initWheel [⟨"a", "A"⟩] with spinning := true } "a" 0 ≠
      { initWheel [⟨"a", "A"⟩] with spinning := true } := by
  have h1 : (spinTo { initWheel [⟨"a", "A"⟩] with spinning := true } "a" 0).rotation
      = 180 := by
    simp [spinTo, initWheel, List.findIdx?, winnerAngle, sliceAngle, currentNorm,
      targetAbs, deltaForward, jsRem, ratTrunc]
    norm_num [Int.floor_eq_iff]
  refine ⟨h1, rfl, fun heq => ?_⟩
  have h2 : (180 : ℚ) = 0 := by
    rw [← h1]
    exact congrArg WheelM.rotation heq
  norm_num at h2

/-- C4 amended: `spinTo` never reads the `spinning` flag, so a call
received while a spin is in progress is processed exactly as from Idle or
Settled: it clears the selection, advances the rotation by a fresh forward
delta and registers an additional completion listener.  Re-entrancy is
only prevented outside the component (the triggering button is disabled
while a draw is in flight). -/
theorem spinTo_while_spinning_starts_new_spin (s : WheelM) (w : String) (k i : ℕ)
    (_hs : s.spinning = true)
    (h : s.items.findIdx? (fun it => it.id == w) = some i) :
    (spinTo s w k).listeners = s.listeners ++
      [⟨s.rotation + deltaForward k (winnerAngle s.items i) (currentNorm s.rotation), w⟩] ∧
    (spinTo s w k).selectedId = none ∧
    (spinTo s w k).spinning = true ∧
    (spinTo s w k).rotation =
      s.rotation + deltaForward k (winnerAngle s.items i) (currentNorm s.rotation) := by
  rw [spinTo_of_found k h]
  exact ⟨rfl, rfl, rfl, rfl⟩

/-- Witness for the amended C4 at a concrete spinning state. -/
theorem spinTo_while_spinning_starts_new_spin_witness :
    ({ initWheel [⟨"a", "A"⟩] with spinning := true } : WheelM).spinning = true ∧
    ({ initWheel [⟨"a", "A"⟩] with spinning := true } : WheelM).items.findIdx?
      (fun it => it.id == "a") = some 0 ∧
    ((spinTo { initWheel [⟨"a", "A"⟩] with spinning := true } "a" 2).listeners =
        ({ initWheel [⟨"a", "A"⟩] with spinning := true } : WheelM).listeners ++
          [⟨({ initWheel [⟨"a", "A"⟩] with spinning := true } : WheelM).rotation +
              deltaForward 2
                (winnerAngle ({ initWheel [⟨"a", "A"⟩] with spinning := true } : WheelM).items 0)
                (currentNorm
                  ({ initWheel [⟨"a", "A"⟩] with spinning := true } : WheelM).rotation),
            "a"⟩] ∧
      (spinTo { initWheel [⟨"a", "A"⟩] with spinning := true } "a" 2).selectedId = none ∧
      (spinTo { initWheel [⟨"a", "A"⟩] with spinning := true } "a" 2).spinning = true ∧
      (spinTo { initWheel [⟨"a", "A"⟩] with spinning := true } "a" 2).rotation =
        ({ initWheel [⟨"a", "A"⟩] with spinning := true } : WheelM).rotation +
          deltaForward 2
            (winnerAngle ({ initWheel [⟨"a", "A"⟩] with spinning := true } : WheelM).items 0)
            (currentNorm
              ({ initWheel [⟨"a", "A"⟩] with spinning := true } : WheelM).rotation)) :=
  ⟨rfl, rfl,
    spinTo_while_spinning_starts_new_spin
      { initWheel [⟨"a", "A"⟩] with spinning := true } "a" 2 0 rfl rfl⟩

/-- The four-item list of the concrete scenario in the spec. -/
def itemsABCD : List WheelItem :=
  [⟨"a", "A"⟩, ⟨"b", "B"⟩, ⟨"c", "C"⟩, ⟨"d", "D"⟩]

/-- C7: concrete scenario: 4 items, current orientation 0, target "c" at
index 2 (slice midpoint 225 degrees), spinCount 6: the computed delta is
6 * 360 + (360 - 225) = 2295, and after the spin settles the selection is
"c". -/
theorem four_item_scenario :
    winnerAngle itemsABCD 2 = 225 ∧
    (spinTo (initWheel itemsABCD) "c" 6).rotation -
      (initWheel itemsABCD).rotation = 2295 ∧
    (runTrace (initWheel itemsABCD)
      [Event.spin "c" 6, Event.transitionComplete, Event.dispatchEnd]).1.selectedId
      = some "c" ∧
    (runTrace (initWheel itemsABCD)
      [Event.spin "c" 6, Event.transitionComplete, Event.dispatchEnd]).1.spinning
      = false := by
  refine ⟨?_, ?_, ?_, ?_⟩
  · norm_num [winnerAngle, sliceAngle, itemsABCD]
  · simp [spinTo, initWheel, itemsABCD, List.findIdx?, winnerAngle, sliceAngle,
      currentNorm, targetAbs, deltaForward, jsRem, ratTrunc]
    norm_num [Int.floor_eq_iff]
  · simp [runTrace, step, spinTo, reset, runOnEnd, initWheel, itemsABCD,
      List.findIdx?, winnerAngle, sliceAngle, currentNorm, targetAbs,
      deltaForward, jsRem, ratTrunc]
  · simp [runTrace, step, spinTo, reset, runOnEnd, initWheel, itemsABCD,
      List.findIdx?, winnerAngle, sliceAngle, currentNorm, targetAbs,
      deltaForward, jsRem, ratTrunc]

/-- C2: a single `spinTo` on a state with no pending listener and a known
target that runs to completion (the transition finishes and its
`transitionend` event is dispatched, with no reset or new spin in
between) invokes `onDone` exactly once and exactly with the requested id,
and ends with `selectedId` equal to the target and phase Settled. -/
theorem single_spin_completes_once (s : WheelM) (w : String) (k i : ℕ)
    (h : s.items.findIdx? (fun it => it.id == w) = some i)
    (hl : s.listeners = [])
    (hq : s.endQueued = false) :
    (runTrace s [Event.spin w k, Event.transitionComplete, Event.dispatchEnd]).2
      = [w] ∧
    (runTrace s
      [Event.spin w k, Event.transitionComplete, Event.dispatchEnd]).1.selectedId
      = some w ∧
    (runTrace s
      [Event.spin w k, Event.transitionComplete, Event.dispatchEnd]).1.spinning
      = false ∧
    (runTrace s
      [Event.spin w k, Event.transitionComplete, Event.dispatchEnd]).1.listeners
      = [] ∧
    phase (runTrace s
      [Event.spin w k, Event.transitionComplete, Event.dispatchEnd]).1
      = Phase.Settled := by
  simp [runTrace, step, spinTo_of_found k h, hl, hq, runOnEnd, phase]

/-- Witness for C2 at a concrete input: one item, one spin. -/
theorem single_spin_completes_once_witness :
    (initWheel [⟨"a", "A"⟩]).items.findIdx? (fun it => it.id == "a") = some 0 ∧
    (initWheel [⟨"a", "A"⟩]).listeners = [] ∧
    (initWheel [⟨"a", "A"⟩]).endQueued = false ∧
    ((runTrace (initWheel [⟨"a", "A"⟩])
        [Event.spin "a" 1, Event.transitionComplete, Event.dispatchEnd]).2 = ["a"] ∧
      (runTrace (initWheel [⟨"a", "A"⟩])
        [Event.spin "a" 1, Event.transitionComplete, Event.dispatchEnd]).1.selectedId
        = some "a" ∧
      (runTrace (initWheel [⟨"a", "A"⟩])
        [Event.spin "a" 1, Event.transitionComplete, Event.dispatchEnd]).1.spinning
        = false ∧
      (runTrace (initWheel [⟨"a", "A"⟩])
        [Event.spin "a" 1, Event.transitionComplete, Event.dispatchEnd]).1.listeners
        = [] ∧
      phase (runTrace (initWheel [⟨"a", "A"⟩])
        [Event.spin "a" 1, Event.transitionComplete, Event.dispatchEnd]).1
        = Phase.Settled) :=
  ⟨rfl, rfl, rfl,
    single_spin_completes_once (initWheel [⟨"a", "A"⟩]) "a" 1 0 rfl rfl rfl⟩

/-- C3 (violated by the code): `reset` while a completion is pending
cannot always suppress it.  In the trace below the spin to "a" is running
(`spinning = true` after the spin step), the transition completes (its
`transitionend` event is queued), then `reset` runs: at that point nothing
has fired (`output = []`, `selectedId = none`).  But `reset` removes no
listener and holds no generation token, so when the already queued event
is dispatched, the pending `onEnd` still runs: `onDone` is invoked with
"a" and `selectedId` becomes "a" AFTER the reset. -/
theorem completion_fires_after_reset :
    (runTrace (initWheel [⟨"a", "A"⟩, ⟨"b", "B"⟩])
      [Event.spin "a" 3]).1.spinning = true ∧
    (runTrace (initWheel [⟨"a", "A"⟩, ⟨"b", "B"⟩])
      [Event.spin "a" 3, Event.transitionComplete, Event.reset]).2 = [] ∧
    (runTrace (initWheel [⟨"a", "A"⟩, ⟨"b", "B"⟩])
      [Event.spin "a" 3, Event.transitionComplete, Event.reset]).1.selectedId
      = none ∧
    (runTrace (initWheel [⟨"a", "A"⟩, ⟨"b", "B"⟩])
      [Event.spin "a" 3, Event.transitionComplete, Event.reset,
        Event.dispatchEnd]).2 = ["a"] ∧
    (runTrace (initWheel [⟨"a", "A"⟩, ⟨"b", "B"⟩])
      [Event.spin "a" 3, Event.transitionComplete, Event.reset,
        Event.dispatchEnd]).1.selectedId = some "a" := by
  refine ⟨?_, ?_, ?_, ?_, ?_⟩ <;>
    simp [runTrace, step, spinTo, reset, runOnEnd, initWheel, List.findIdx?,
      winnerAngle, sliceAngle, currentNorm, targetAbs, deltaForward, jsRem,
      ratTrunc]

/-- C6 counterexample: the settle step does NOT bring the rotation into a
bounded canonical range.  Three items, spin of 2 revolutions to "b": the
pre-settle target rotation is 900 and after the spin settles the rotation
is still 900, outside the canonical range [0, 360) — the update
`prev + (canonical - prev % 360)` is the identity when the stored
rotation already equals the target. -/
theorem settle_keeps_unbounded_rotation :
    (runTrace (initWheel [⟨"a", "A"⟩, ⟨"b", "B"⟩, ⟨"c", "C"⟩])
      [Event.spin "b" 2, Event.transitionComplete, Event.dispatchEnd]).1.rotation
      = 900 ∧
    (runTrace (initWheel [⟨"a", "A"⟩, ⟨"b", "B"⟩, ⟨"c", "C"⟩])
      [Event.spin "b" 2, Event.transitionComplete, Event.dispatchEnd]).1.spinning
      = false ∧
    ¬ (runTrace (initWheel [⟨"a", "A"⟩, ⟨"b", "B"⟩, ⟨"c", "C"⟩])
      [Event.spin "b" 2, Event.transitionComplete, Event.dispatchEnd]).1.rotation
      < 360 := by
  have h1 : (runTrace (initWheel [⟨"a", "A"⟩, ⟨"b", "B"⟩, ⟨"c", "C"⟩])
      [Event.spin "b" 2, Event.transitionComplete, Event.dispatchEnd]).1.rotation
      = 900 := by
    simp [runTrace, step, spinTo, reset, runOnEnd, initWheel, List.findIdx?,
      winnerAngle, sliceAngle, currentNorm, targetAbs, deltaForward, jsRem,
      ratTrunc]
    norm_num [Int.floor_eq_iff]
  refine ⟨h1, ?_, ?_⟩
  · simp [runTrace, step, spinTo, reset, runOnEnd, initWheel, List.findIdx?,
      winnerAngle, sliceAngle, currentNorm, targetAbs, deltaForward, jsRem,
      ratTrunc]
  · rw [h1]
    norm_num

/-- C6 amended: on the normal completion path (the stored rotation equals
the target rotation captured by the listener) the settle step leaves the
rotation exactly equal to the pre-settle target rotation — hence congruent
to it modulo 360, preserving the visible orientation — and performs no
reduction into a bounded range; the modulo only enters at settle time,
never during the spin. -/
theorem settle_preserves_target_rotation (s : WheelM) (p : Pending)
    (h : s.rotation = p.nextRotation) :
    (runOnEnd s p).rotation = s.rotation ∧
    emod360 (runOnEnd s p).rotation = emod360 p.nextRotation ∧
    (runOnEnd s p).selectedId = some p.winnerId := by
  have h1 : (runOnEnd s p).rotation = s.rotation := by
    unfold runOnEnd
    rw [h]
    ring_nf
  exact ⟨h1, by rw [h1, h], rfl⟩

/-- Witness for the amended C6 at a concrete settling state. -/
theorem settle_preserves_target_rotation_witness :
    ({ initWheel [⟨"a", "A"⟩] with rotation := 540, spinning := true } : WheelM).rotation
      = (⟨540, "a"⟩ : Pending).nextRotation ∧
    ((runOnEnd { initWheel [⟨"a", "A"⟩] with rotation := 540, spinning := true }
        ⟨540, "a"⟩).rotation =
      ({ initWheel [⟨"a", "A"⟩] with rotation := 540, spinning := true } : WheelM).rotation ∧
      emod360 (runOnEnd { initWheel [⟨"a", "A"⟩] with rotation := 540, spinning := true }
        ⟨540, "a"⟩).rotation = emod360 (⟨540, "a"⟩ : Pending).nextRotation ∧
      (runOnEnd { initWheel [⟨"a", "A"⟩] with rotation := 540, spinning := true }
        ⟨540, "a"⟩).selectedId = some (⟨540, "a"⟩ : Pending).winnerId) :=
  ⟨rfl, settle_preserves_target_rotation
    { initWheel [⟨"a", "A"⟩] with rotation := 540, spinning := true } ⟨540, "a"⟩ rfl⟩

/-! ### The non-negativity invariant (C9) -/

/-- Invariant: the rotation is non-negative and so is the captured target
rotation of every registered listener. -/
def GoodState (s : WheelM) : Prop :=
  0 ≤ s.rotation ∧ ∀ p ∈ s.listeners, 0 ≤ p.nextRotation

theorem foldl_runOnEnd_nonneg (l : List Pending) (s : WheelM)
    (hs : 0 ≤ s.rotation) (hl : ∀ p ∈ l, 0 ≤ p.nextRotation) :
    0 ≤ (l.foldl runOnEnd s).rotation := by
  induction l generalizing s with
  | nil => simpa using hs
  | cons p ps ih =>
    simp only [List.foldl_cons]
    apply ih
    · have h1 : 0 ≤ p.nextRotation := hl p (by simp)
      have h2 : jsRem p.nextRotation 360 = emod360 p.nextRotation :=
        jsRem_eq_emod360 h1
      have h3 : jsRem s.rotation 360 = emod360 s.rotation := jsRem_eq_emod360 hs
      have h4 := emod360_nonneg p.nextRotation
      have h5 := emod360_le_self hs
      show 0 ≤ s.rotation + (jsRem p.nextRotation 360 - jsRem s.rotation 360)
      rw [h2, h3]
      linarith
    · intro q hq
      exact hl q (by simp [hq])

theorem step_preserves_good (s : WheelM) (e : Event) (hg : GoodState s) :
    GoodState (step s e).1 := by
  obtain ⟨h0, hl⟩ := hg
  cases e with
  | spin w k =>
    simp only [step]
    cases hfi : s.items.findIdx? (fun it => it.id == w) with
    | none =>
      rw [spinTo_noop_on_bad_target s w k (Or.inr hfi)]
      exact ⟨h0, hl⟩
    | some i =>
      rw [spinTo_of_found k hfi]
      have hd : 0 ≤ deltaForward k (winnerAngle s.items i) (currentNorm s.rotation) := by
        have h1 := deltaForward_lower k (winnerAngle s.items i) (currentNorm s.rotation)
        have h2 : (0 : ℚ) ≤ (k : ℚ) * 360 := by positivity
        linarith
      constructor
      · show 0 ≤ s.rotation +
          deltaForward k (winnerAngle s.items i) (currentNorm s.rotation)
        linarith
      · intro p hp
        rw [List.mem_append] at hp
        rcases hp with hp | hp
        · exact hl p hp
        · rw [List.mem_singleton] at hp
          subst hp
          show 0 ≤ s.rotation +
            deltaForward k (winnerAngle s.items i) (currentNorm s.rotation)
          linarith
  | transitionComplete =>
    simp only [step]
    split
    · exact ⟨h0, hl⟩
    · exact ⟨h0, hl⟩
  | dispatchEnd =>
    simp only [step]
    split
    · constructor
      · show 0 ≤ (s.listeners.foldl runOnEnd s).rotation
        exact foldl_runOnEnd_nonneg s.listeners s h0 hl
      · intro p hp
        simp at hp
    · exact ⟨h0, hl⟩
  | reset =>
    exact ⟨le_refl 0, hl⟩

theorem runTrace_preserves_good (s : WheelM) (es : List Event) (hg : GoodState s) :
    GoodState (runTrace s es).1 := by
  induction es generalizing s with
  | nil => simpa [runTrace] using hg
  | cons e es ih =>
    simp only [runTrace]
    exact ih _ (step_preserves_good s e hg)

/-- C9 amended: starting from the initial state, every sequence of
`spinTo`, completion and `reset` events keeps the rotation ≥ 0, so the JS
remainder applied to the rotation in the canonicalization step agrees with
the Euclidean modulo. -/
theorem rotation_nonneg_invariant (items : List WheelItem) (es : List Event) :
    0 ≤ (runTrace (initWheel items) es).1.rotation ∧
    jsRem (runTrace (initWheel items) es).1.rotation 360 =
      emod360 (runTrace (initWheel items) es).1.rotation := by
  have hg : GoodState (initWheel items) := by
    constructor
    · exact le_refl 0
    · intro p hp
      simp [initWheel] at hp
  have h := runTrace_preserves_good (initWheel items) es hg
  exact ⟨h.1, jsRem_eq_emod360 h.1⟩

/-- C9 counterexample: the settled rotation need not lie in [0, 360).
Two items, spin of 1 revolution to "b": after the spin settles the
rotation is 450. -/
theorem settled_rotation_exceeds_range :
    (runTrace (initWheel [⟨"a", "A"⟩, ⟨"b", "B"⟩])
      [Event.spin "b" 1, Event.transitionComplete, Event.dispatchEnd]).1.rotation
      = 450 ∧
    (runTrace (initWheel [⟨"a", "A"⟩, ⟨"b", "B"⟩])
      [Event.spin "b" 1, Event.transitionComplete, Event.dispatchEnd]).1.spinning
      = false ∧
    ¬ (runTrace (initWheel [⟨"a", "A"⟩, ⟨"b", "B"⟩])
      [Event.spin "b" 1, Event.transitionComplete, Event.dispatchEnd]).1.rotation
      < 360 := by
  have h1 : (runTrace (initWheel [⟨"a", "A"⟩, ⟨"b", "B"⟩])
      [Event.spin "b" 1, Event.transitionComplete, Event.dispatchEnd]).1.rotation
      = 450 := by
    simp [runTrace, step, spinTo, reset, runOnEnd, initWheel, List.findIdx?,
      winnerAngle, sliceAngle, currentNorm, targetAbs, deltaForward, jsRem,
      ratTrunc]
    norm_num [Int.floor_eq_iff]
  refine ⟨h1, ?_, ?_⟩
  · simp [runTrace, step, spinTo, reset, runOnEnd, initWheel, List.findIdx?,
      winnerAngle, sliceAngle, currentNorm, targetAbs, deltaForward, jsRem,
      ratTrunc]
  · rw [h1]
    norm_num
